import Mathlib

/-!
Shallow embedding of the rationale-alignment and example-assembly code of
`scripts/build_ood_dataset.py` (UNIREX repository), together with theorems
settling the specification claims about it.

Conventions:
* Python exceptions (failed `assert`, `IndexError`, `ValueError`, `TypeError`)
  are modelled by `Option`: `none` means the run aborts, `some` a normal return.
* The aligner copies rationale values without inspecting them, so it is
  polymorphic in the value type, mirroring Python's dynamic typing.  The
  values actually stored by the example builders are the integers 0 and 1
  (directly, or as the floats `0.0` / `1.0` produced by thresholding), so the
  assembled rationale sequences are modelled as `List Int`; the continuous
  sst annotation scores that feed the `x >= 0.5` threshold, and the standard
  normal draws of `np.random.randn`, are modelled as `Rat`.
* The external tokenizer is a collaborator: its special-token ids and its
  `convert_ids_to_tokens` map (applied elementwise) are parameters.
-/

/-- Special-token ids and the id-to-surface-piece map of the external
tokenizer (`cls_token_id`, `sep_token_id`, `pad_token_id`, `unk_token_id`,
and `convert_ids_to_tokens` applied to a single id). -/
structure Tokenizer where
  cls_token_id : Nat
  sep_token_id : Nat
  pad_token_id : Nat
  unk_token_id : Nat
  convert : Nat → String

/-- Inner `for char in cur_token` loop of `align_rationale_with_tokens`
(build_ood_dataset.py lines 87-90): each character of the current subword
token is compared with the head of the not-yet-matched remainder of the word
and consumed on a match.  Evaluating `cur_raw_token[0]` on an already empty
remainder raises `IndexError` in Python (modelled as `none`).  Returns the
remaining word characters and the reconstruction accumulated so far. -/
def consumeToken : List Char → List Char → List Char → Option (List Char × List Char)
  | [], rem, recon => some (rem, recon)
  | _ :: _, [], _ => none
  | c :: cs, r :: rs, recon =>
    if c = r then consumeToken cs rs (recon ++ [c])
    else consumeToken cs (r :: rs) recon

/-- One run of the `while len(cur_raw_token) > 0` loop (lines 86-94) for a
single word: successive subword tokens are consumed until the word's
characters are exhausted.  Returns the reconstructed word, the number of
subword tokens consumed (one rationale entry is appended per consumed token)
and the remaining tokens.  When the tokens run out while word characters
remain, the Python code iterates over `None` and raises (modelled `none`). -/
def consumeWord : List (List Char) → List Char → List Char →
    Option (List Char × Nat × List (List Char))
  | toks, [], recon => some (recon, 0, toks)
  | [], _ :: _, _ => none
  | t :: ts, r :: rs, recon =>
    match consumeToken t (r :: rs) recon with
    | none => none
    | some p =>
      match consumeWord ts p.1 p.2 with
      | none => none
      | some q => some (q.1, q.2.1 + 1, q.2.2)

/-- Outer `for i in range(len(raw_tokens))` loop of
`align_rationale_with_tokens` (lines 81-96) on character lists: for each word
its rationale value is read (an out-of-range read of `raw_rationale[i]`
raises, modelled `none`), the word is reconstructed from subword tokens, the
rationale value is appended once per consumed token, and
`assert cur_reconstructed_raw_token == raw_tokens[i]` aborts on mismatch. -/
def alignCore {α : Type} (toks : List (List Char)) (ws : List (List Char))
    (rats : List α) : Option (List α) :=
  match ws with
  | [] => some []
  | w :: ws2 =>
    match rats with
    | [] => none
    | r :: rs =>
      match consumeWord toks w [] with
      | none => none
      | some q =>
        if q.1 = w then
          match alignCore q.2.2 ws2 rs with
          | none => none
          | some tail => some (List.replicate q.2.1 r ++ tail)
        else none

/-- `align_rationale_with_tokens(input_ids, raw_tokens, raw_rationale,
tokenizer)` (lines 75-98).  `tokens = tokenizer.convert_ids_to_tokens(
input_ids)` is elementwise conversion, so there is exactly one surface piece
per entry of `input_ids`.  The initial `cur_token = tokens[0]` raises
`IndexError` when `tokens` is empty. -/
def align_rationale_with_tokens {α : Type} (input_ids : List Nat)
    (raw_tokens : List String) (raw_rationale : List α) (tk : Tokenizer) :
    Option (List α) :=
  let tokens := input_ids.map (fun i => (tk.convert i).toList)
  if tokens.isEmpty then none
  else alignCore tokens (raw_tokens.map String.toList) raw_rationale

/-- Reconstruction trace of `align_rationale_with_tokens`: the word
reconstructed (lines 84-90) for each entry of `raw_tokens`, with the
word-mismatch assert of line 96 removed.  Used to state that the aligner only
returns normally when every reconstructed word equals its surface word. -/
def reconstructedWords (toks ws : List (List Char)) : Option (List (List Char)) :=
  match ws with
  | [] => some []
  | w :: ws2 =>
    match consumeWord toks w [] with
    | none => none
    | some q =>
      match reconstructedWords q.2.2 ws2 with
      | none => none
      | some tail => some (q.1 :: tail)

example : consumeToken ['g', 'o'] ['g', 'o', 'o', 'd'] [] =
    some (['o', 'd'], ['g', 'o']) := by decide

example : alignCore [['g', 'o'], ['o', 'd']] [['g', 'o', 'o', 'd']] [(1 : Int)] =
    some [1, 1] := by decide

/-- One interned ERASER record, carrying the field
`interned_annotations[idx].classification` read at line 61. -/
structure AnnRecord where
  classification : String

/-- The accumulating `dataset_dict` (a per-field mapping of ordered
per-example values, see lines 63-70 and the save step). -/
structure DatasetDict where
  item_idx : List Nat
  input_ids : List (List Nat)
  attention_mask : List (List Nat)
  rationale : List (List Int)
  inv_rationale : List (List Int)
  rand_rationale : List (List Rat)
  has_rationale : List Nat
  label : List Nat

/-- The empty `ddict(list)` the split build starts from (line 267). -/
def emptyDatasetDict : DatasetDict :=
  { item_idx := [], input_ids := [], attention_mask := [], rationale := [],
    inv_rationale := [], rand_rationale := [], has_rationale := [], label := [] }

/-- `update_dataset_dict` (lines 37-72).  The `rand` argument stands for the
values drawn by `np.random.randn(max_length)` at line 55.  Aborts (`none`) on:
the length assert of line 42, negative padding (line 48), an empty rationale
(lines 58-59), an out-of-range `interned_annotations[idx]` read, or
`classes.index` not finding the classification (line 61).  All aborts happen
before any field of the dictionary is appended to. -/
def update_dataset_dict (idx : Nat) (d : DatasetDict) (input_ids0 : List Nat)
    (rationale0 : List Int) (max_length actual_max_length : Nat) (tk : Tokenizer)
    (anns : List AnnRecord) (classes : List String) (rand : List Rat) :
    Option (DatasetDict × Nat) :=
  let input_ids1 := tk.cls_token_id :: input_ids0 ++ [tk.sep_token_id]
  let rationale1 := (0 : Int) :: rationale0 ++ [0]
  if input_ids1.length = rationale1.length then
    let num_tokens := input_ids1.length
    let aml := if actual_max_length < num_tokens then num_tokens else actual_max_length
    if num_tokens ≤ max_length then
      let num_pad_tokens := max_length - num_tokens
      let input_ids2 := input_ids1 ++ List.replicate num_pad_tokens tk.pad_token_id
      let attn_mask := List.replicate num_tokens (1 : Nat) ++ List.replicate num_pad_tokens 0
      let rationale2 := rationale1 ++ List.replicate num_pad_tokens (0 : Int)
      let inv_rat := rationale2.map (fun x => 1 - x)
      let has_rat : Nat := if 0 < rationale2.sum then 1 else 0
      if has_rat = 0 then none
      else
        match anns.get? idx with
        | none => none
        | some a =>
          match classes.findIdx? (fun c => c = a.classification) with
          | none => none
          | some lbl =>
            some ({ item_idx := d.item_idx ++ [idx]
                    input_ids := d.input_ids ++ [input_ids2]
                    attention_mask := d.attention_mask ++ [attn_mask]
                    rationale := d.rationale ++ [rationale2]
                    inv_rationale := d.inv_rationale ++ [inv_rat]
                    rand_rationale := d.rand_rationale ++ [rand]
                    has_rationale := d.has_rationale ++ [has_rat]
                    label := d.label ++ [lbl] }, aml)
    else none
  else none

/-- Per-example inputs handed to `update_dataset_dict` by the esnli / fever /
movies / multirc loops (index, core token ids, core rationale and the fresh
normal draws of line 55). -/
structure ExampleInput where
  idx : Nat
  input_ids : List Nat
  rationale : List Int
  rand : List Rat

/-- The per-split driver loop around `update_dataset_dict` (e.g. lines
332-353 for esnli): examples are processed in order and the first raised
exception aborts the whole split build. -/
def buildSplit (tk : Tokenizer) (anns : List AnnRecord) (classes : List String)
    (max_length : Nat) : List ExampleInput → DatasetDict → Nat →
      Option (DatasetDict × Nat)
  | [], d, aml => some (d, aml)
  | e :: es, d, aml =>
    match update_dataset_dict e.idx d e.input_ids e.rationale max_length aml tk
        anns classes e.rand with
    | none => none
    | some r => buildSplit tk anns classes max_length es r.1 r.2

/-- Python slice `xs[:n]` for an arbitrary (possibly negative) `n`. -/
def pyTake (xs : List α) (n : Int) : List α :=
  if 0 ≤ n then xs.take n.toNat else xs.take (xs.length - (-n).toNat)

/-- Python slice `xs[-n:]` for an arbitrary `n`: the last `n` elements when
`0 < n`, the whole list when `n = 0` (since `-0 = 0`), and `xs[(-n):]` when
`n < 0`. -/
def pyLastN (xs : List α) (n : Int) : List α :=
  if 0 < n then xs.drop (xs.length - n.toNat)
  else if n = 0 then xs
  else xs.drop (-n).toNat

/-- Window selection for long evidence-identification documents, fever lines
375-381 and movies lines 402-408: `input_length = min(len(ids), budget)`;
the prefix `ids[:input_length]` is kept when `sum(rationale[:input_length])
> 0`, otherwise the suffix `ids[-input_length:]` is kept (both slices applied
to ids and rationale alike). -/
def truncate_evidence (ids : List Nat) (rationale : List Int) (budget : Int) :
    List Nat × List Int :=
  let input_length : Int := min (ids.length : Int) budget
  if 0 < (pyTake rationale input_length).sum then
    (pyTake ids input_length, pyTake rationale input_length)
  else
    (pyLastN ids input_length, pyLastN rationale input_length)

/-- Word-level rationale length normalisation shared by the sst branch (lines
458-463) and the hatexplain branch (lines 740-745):
`assert len(raw_tokens) >= len(raw_rationale)` aborts on violation, then the
rationale is right-padded with `0.0` by the length difference. -/
def pad_raw_rationale (num_raw_tokens : Nat) (raw_rationale : List Int) :
    Option (List Int) :=
  if num_raw_tokens < raw_rationale.length then none
  else some (raw_rationale ++ List.replicate (num_raw_tokens - raw_rationale.length) 0)

/-- The per-example fields appended by the sst branch (lines 494-504) and the
hatexplain branch (lines 773-780). -/
structure BuiltExample where
  input_ids : List Nat
  attention_mask : List Nat
  rationale : List Int
  inv_rationale : List Int
  rand_rationale : List Rat
  has_rationale : Nat
  label : Nat

/-- One iteration of the sst build loop (lines 452-504).  `inst_rationale` is
`instance['rationale']` (continuous annotation scores), thresholded at `0.5`
into 0/1 values at line 457; `input_ids0` is the tokenizer output for the
text without special tokens (line 466), `rand` the draws of line 490.  The
commented-out `assert sum(rationale) > 0` of line 484 is absent, and
`has_rationale` is 1 exactly when `1.0 in rationale` (lines 500-503). -/
def sst_build_example (tk : Tokenizer) (raw_tokens : List String)
    (inst_rationale : List Rat) (input_ids0 : List Nat)
    (max_length num_special_tokens : Nat) (classes : List String)
    (classification : String) (rand : List Rat) : Option BuiltExample :=
  let raw_rationale0 := inst_rationale.map
    (fun x => if (1 : Rat)/2 ≤ x then (1 : Int) else 0)
  match pad_raw_rationale raw_tokens.length raw_rationale0 with
  | none => none
  | some raw_rationale =>
    if raw_tokens.length ≤ max_length then
      match align_rationale_with_tokens input_ids0 raw_tokens raw_rationale tk with
      | none => none
      | some rationale0 =>
        if input_ids0.length = rationale0.length then
          let num_tokens := input_ids0.length + num_special_tokens
          if num_tokens ≤ max_length then
            let num_pad_tokens := max_length - num_tokens
            let input_ids1 := tk.cls_token_id :: input_ids0 ++ [tk.sep_token_id] ++
              List.replicate num_pad_tokens tk.pad_token_id
            if input_ids1.all (fun x => x ≠ tk.unk_token_id) then
              if input_ids1.length = max_length then
                let attn_mask := List.replicate num_tokens (1 : Nat) ++
                  List.replicate num_pad_tokens 0
                let rationale1 := (0 : Int) :: rationale0 ++ [0] ++
                  List.replicate num_pad_tokens 0
                if attn_mask.length = max_length then
                  if rationale1.length = max_length then
                    match classes.findIdx? (fun c => c = classification) with
                    | none => none
                    | some lbl =>
                      some { input_ids := input_ids1, attention_mask := attn_mask,
                             rationale := rationale1,
                             inv_rationale := rationale1.map (fun x => 1 - x),
                             rand_rationale := rand,
                             has_rationale := if (1 : Int) ∈ rationale1 then 1 else 0,
                             label := lbl }
                  else none
                else none
              else none
            else none
          else none
        else none
    else none

/-- One iteration of the hatexplain build loop (lines 727-780).
`row_rationale` is `row['rationale']`; when it is empty the word rationale is
all zeros and `has_rationale = 0`, otherwise the raw list is used as-is and
`has_rationale = 1` (lines 732-737) regardless of its contents.  The
unknown-token assert (line 760) and the positive-sum assert (line 767) are
commented out in the source and therefore absent here. -/
def hatexplain_build_example (tk : Tokenizer) (raw_tokens : List String)
    (row_rationale : List Int) (input_ids0 : List Nat)
    (max_length num_special_tokens : Nat) (lbl : Nat) (rand : List Rat) :
    Option BuiltExample :=
  let p := if row_rationale.length = 0 then
      (List.replicate raw_tokens.length (0 : Int), (0 : Nat))
    else (row_rationale, 1)
  match pad_raw_rationale raw_tokens.length p.1 with
  | none => none
  | some raw_rationale =>
    if raw_tokens.length ≤ max_length then
      match align_rationale_with_tokens input_ids0 raw_tokens raw_rationale tk with
      | none => none
      | some rationale0 =>
        if input_ids0.length = rationale0.length then
          let num_tokens := input_ids0.length + num_special_tokens
          if num_tokens ≤ max_length then
            let num_pad_tokens := max_length - num_tokens
            let input_ids1 := tk.cls_token_id :: input_ids0 ++ [tk.sep_token_id] ++
              List.replicate num_pad_tokens tk.pad_token_id
            if input_ids1.length = max_length then
              let attn_mask := List.replicate num_tokens (1 : Nat) ++
                List.replicate num_pad_tokens 0
              if attn_mask.length = max_length then
                let rationale1 := (0 : Int) :: rationale0 ++ [0] ++
                  List.replicate num_pad_tokens 0
                if rationale1.length = max_length then
                  some { input_ids := input_ids1, attention_mask := attn_mask,
                         rationale := rationale1,
                         inv_rationale := rationale1.map (fun x => 1 - x),
                         rand_rationale := rand,
                         has_rationale := p.2, label := lbl }
                else none
              else none
            else none
          else none
        else none
    else none

/-- A concrete toy tokenizer used for evaluating the embedded code on
explicit inputs. -/
def toyTok : Tokenizer :=
  { cls_token_id := 100, sep_token_id := 101, pad_token_id := 102,
    unk_token_id := 103,
    convert := fun i =>
      if i = 0 then "a" else if i = 1 then "b"
      else if i = 2 then "go" else if i = 3 then "od" else "z" }

example : align_rationale_with_tokens [2, 3] ["good"] [(1 : Int)] toyTok =
    some [1, 1] := by decide

example : align_rationale_with_tokens [0, 1] ["a"] [(1 : Int)] toyTok =
    some [1] := by decide

example : (hatexplain_build_example toyTok ["a", "b"] [0, 0] [0, 1] 6 2 0 []).map
    (fun b => (b.has_rationale, b.rationale)) = some (1, [0, 0, 0, 0, 0, 0]) := by decide

example : (sst_build_example toyTok ["a"] [] [0] 4 2 ["x"] "x" []).map
    (fun b => (b.has_rationale, b.rationale)) = some (0, [0, 0, 0, 0]) := by decide

example : (update_dataset_dict 0 emptyDatasetDict [0] [1] 4 0 toyTok
    [⟨"x"⟩] ["x"] []).isSome = true := by decide


/-! Helper lemmas shared by the claim theorems. -/

lemma consumeWord_count : ∀ (toks : List (List Char)) (rem recon rc : List Char)
    (n : Nat) (rest : List (List Char)),
    consumeWord toks rem recon = some (rc, n, rest) → n + rest.length = toks.length := by
  intro toks
  induction toks with
  | nil =>
    intro rem recon rc n rest h
    cases rem with
    | nil =>
      simp only [consumeWord, Option.some.injEq, Prod.mk.injEq] at h
      obtain ⟨-, h2, h3⟩ := h
      simp [← h2, ← h3]
    | cons a as => simp [consumeWord] at h
  | cons t ts ih =>
    intro rem recon rc n rest h
    cases rem with
    | nil =>
      simp only [consumeWord, Option.some.injEq, Prod.mk.injEq] at h
      obtain ⟨-, h2, h3⟩ := h
      simp [← h2, ← h3]
    | cons a as =>
      simp only [consumeWord] at h
      split at h
      · simp at h
      · rename_i p hp
        split at h
        · simp at h
        · rename_i q hq
          simp only [Option.some.injEq, Prod.mk.injEq] at h
          obtain ⟨-, h2, h3⟩ := h
          have hlen := ih p.1 p.2 q.1 q.2.1 q.2.2 hq
          simp only [List.length_cons, ← h2, ← h3]
          omega

lemma alignCore_join {α : Type} : ∀ (ws toks : List (List Char)) (rats : List α)
    (r : List α), alignCore toks ws rats = some r →
    ∃ counts : List Nat, counts.length = ws.length ∧
      r = (List.zipWith (fun n v => List.replicate n v) counts rats).flatten ∧
      r.length ≤ toks.length := by
  intro ws
  induction ws with
  | nil =>
    intro toks rats r h
    simp only [alignCore, Option.some.injEq] at h
    exact ⟨[], rfl, by simp [← h], by simp [← h]⟩
  | cons w ws2 ih =>
    intro toks rats r h
    cases rats with
    | nil => simp [alignCore] at h
    | cons r0 rs =>
      simp only [alignCore] at h
      split at h
      · simp at h
      · rename_i q hq
        split at h
        · rename_i hw
          split at h
          · simp at h
          · rename_i tail ht
            simp only [Option.some.injEq] at h
            obtain ⟨counts, hc1, hc2, hc3⟩ := ih q.2.2 rs tail ht
            refine ⟨q.2.1 :: counts, by simp [hc1], ?_, ?_⟩
            · rw [← h, hc2]
              simp
            · have hcount := consumeWord_count toks w [] q.1 q.2.1 q.2.2 hq
              rw [← h]
              simp only [List.length_append, List.length_replicate]
              omega
        · simp at h

lemma alignCore_reconstructs {α : Type} : ∀ (ws toks : List (List Char))
    (rats : List α) (r : List α), alignCore toks ws rats = some r →
    reconstructedWords toks ws = some ws := by
  intro ws
  induction ws with
  | nil => intro toks rats r _; simp [reconstructedWords]
  | cons w ws2 ih =>
    intro toks rats r h
    cases rats with
    | nil => simp [alignCore] at h
    | cons r0 rs =>
      simp only [alignCore] at h
      split at h
      · simp at h
      · rename_i q hq
        split at h
        · rename_i hw
          split at h
          · simp at h
          · rename_i tail ht
            simp only [reconstructedWords, hq]
            rw [ih q.2.2 rs tail ht, hw]
        · simp at h

lemma mem_rats_of_mem_zipFlatten {α : Type} : ∀ (counts : List Nat) (rats : List α)
    (x : α), x ∈ (List.zipWith (fun n v => List.replicate n v) counts rats).flatten →
    x ∈ rats := by
  intro counts
  induction counts with
  | nil => simp
  | cons c cs ih =>
    intro rats x h
    cases rats with
    | nil => simp at h
    | cons r rs =>
      simp only [List.zipWith_cons_cons, List.flatten_cons, List.mem_append] at h
      cases h with
      | inl h => rw [List.eq_of_mem_replicate h]; exact List.mem_cons_self r rs
      | inr h => exact List.mem_cons_of_mem r (ih rs x h)

lemma exists_pos_of_sum_pos : ∀ (l : List Int), 0 < l.sum → ∃ x ∈ l, 0 < x := by
  intro l
  induction l with
  | nil => simp
  | cons a t ih =>
    intro h
    rw [List.sum_cons] at h
    by_cases ha : 0 < a
    · exact ⟨a, List.mem_cons_self a t, ha⟩
    · have hts : 0 < t.sum := by omega
      obtain ⟨x, hx, hx2⟩ := ih hts
      exact ⟨x, List.mem_cons_of_mem a hx, hx2⟩

lemma sum_pos_iff_exists_pos (l : List Int) (hnn : ∀ x ∈ l, 0 ≤ x) :
    0 < l.sum ↔ ∃ x ∈ l, 0 < x := by
  constructor
  · exact exists_pos_of_sum_pos l
  · rintro ⟨x, hx, hpos⟩
    calc (0 : Int) < x := hpos
    _ ≤ l.sum := List.single_le_sum hnn x hx

lemma getD_map_of_lt {α β : Type} (f : α → β) : ∀ (l : List α) (i : Nat),
    i < l.length → ∀ (d1 : β) (d2 : α), (l.map f).getD i d1 = f (l.getD i d2) := by
  intro l
  induction l with
  | nil => intro i h; simp at h
  | cons a t ih =>
    intro i h d1 d2
    cases i with
    | zero => simp
    | succ n =>
      simp only [List.map_cons, List.getD_cons_succ]
      exact ih n (by simpa using h) d1 d2

lemma udd_none_of_sum_zero (idx : Nat) (d : DatasetDict) (input_ids0 : List Nat)
    (rationale0 : List Int) (max_length actual_max_length : Nat) (tk : Tokenizer)
    (anns : List AnnRecord) (classes : List String) (rand : List Rat)
    (h : rationale0.sum = 0) :
    update_dataset_dict idx d input_ids0 rationale0 max_length actual_max_length
      tk anns classes rand = none := by
  simp only [update_dataset_dict]
  split
  · split
    · simp [List.sum_append, h]
    · rfl
  · rfl

lemma udd_some_spec (idx : Nat) (d : DatasetDict) (input_ids0 : List Nat)
    (rationale0 : List Int) (max_length actual_max_length : Nat) (tk : Tokenizer)
    (anns : List AnnRecord) (classes : List String) (rand : List Rat)
    (out : DatasetDict × Nat)
    (h : update_dataset_dict idx d input_ids0 rationale0 max_length actual_max_length
      tk anns classes rand = some out) :
    input_ids0.length = rationale0.length ∧
    input_ids0.length + 2 ≤ max_length ∧
    0 < rationale0.sum ∧
    out.1.item_idx = d.item_idx ++ [idx] ∧
    out.1.input_ids = d.input_ids ++
      [(tk.cls_token_id :: input_ids0 ++ [tk.sep_token_id]) ++
        List.replicate (max_length - (input_ids0.length + 2)) tk.pad_token_id] ∧
    out.1.attention_mask = d.attention_mask ++
      [List.replicate (input_ids0.length + 2) 1 ++
        List.replicate (max_length - (input_ids0.length + 2)) 0] ∧
    out.1.rationale = d.rationale ++
      [((0 : Int) :: rationale0 ++ [0]) ++
        List.replicate (max_length - (input_ids0.length + 2)) 0] ∧
    out.1.inv_rationale = d.inv_rationale ++
      [(((0 : Int) :: rationale0 ++ [0]) ++
        List.replicate (max_length - (input_ids0.length + 2)) 0).map (fun x => 1 - x)] ∧
    out.1.rand_rationale = d.rand_rationale ++ [rand] ∧
    out.1.has_rationale = d.has_rationale ++ [1] ∧
    (∃ lbl, out.1.label = d.label ++ [lbl]) := by
  simp only [update_dataset_dict] at h
  have hnt : (tk.cls_token_id :: input_ids0 ++ [tk.sep_token_id]).length =
      input_ids0.length + 2 := by
    simp [List.length_append]
  rw [hnt] at h
  split at h
  · rename_i hlen
    split at h
    · rename_i hle
      split at h
      · rename_i hbig
        split at h
        · simp at h
        · rename_i hne10
          split at h
          · simp at h
          · rename_i a ha
            split at h
            · simp at h
            · rename_i lbl hl
              simp only [Option.some.injEq] at h
              have hlen2 : input_ids0.length = rationale0.length := by
                simp at hlen
                omega
              have hsum : 0 < rationale0.sum := by
                simpa [List.sum_append, List.sum_replicate] using hbig
              refine ⟨hlen2, hle, hsum, ?_, ?_, ?_, ?_, ?_, ?_, ?_, ⟨lbl, ?_⟩⟩ <;>
                rw [← h]
      · rename_i hnotbig
        split at h
        · simp at h
        · rename_i hne
          exact absurd rfl hne
    · simp at h
  · simp at h


lemma udd_none_of_over_budget (idx : Nat) (d : DatasetDict) (input_ids0 : List Nat)
    (rationale0 : List Int) (max_length actual_max_length : Nat) (tk : Tokenizer)
    (anns : List AnnRecord) (classes : List String) (rand : List Rat)
    (h : max_length < input_ids0.length + 2) :
    update_dataset_dict idx d input_ids0 rationale0 max_length actual_max_length
      tk anns classes rand = none := by
  simp only [update_dataset_dict]
  split
  · split
    · rename_i hle
      simp only [List.length_cons, List.length_append, List.length_singleton] at hle
      omega
    · rfl
  · rfl

lemma udd_isSome_of_ok (idx : Nat) (d : DatasetDict) (input_ids0 : List Nat)
    (rationale0 : List Int) (max_length actual_max_length : Nat) (tk : Tokenizer)
    (anns : List AnnRecord) (classes : List String) (rand : List Rat)
    (a : AnnRecord) (lbl : Nat)
    (hlen : input_ids0.length = rationale0.length)
    (hle : input_ids0.length + 2 ≤ max_length)
    (hsum : 0 < rationale0.sum)
    (ha : anns.get? idx = some a)
    (hl : classes.findIdx? (fun c => c = a.classification) = some lbl) :
    (update_dataset_dict idx d input_ids0 rationale0 max_length actual_max_length
      tk anns classes rand).isSome = true := by
  simp only [update_dataset_dict]
  rw [if_pos (by simp [hlen])]
  rw [if_pos (by simp [List.length_append]; omega)]
  rw [if_neg (by simp [List.sum_append, hsum])]
  simp only [ha, hl]
  rfl

lemma align_some_structure {α : Type} (input_ids : List Nat) (raw_tokens : List String)
    (raw_rationale : List α) (tk : Tokenizer) (r : List α)
    (h : align_rationale_with_tokens input_ids raw_tokens raw_rationale tk = some r) :
    ∃ counts : List Nat, counts.length = raw_tokens.length ∧
      r = (List.zipWith (fun n v => List.replicate n v) counts raw_rationale).flatten ∧
      r.length ≤ input_ids.length := by
  simp only [align_rationale_with_tokens] at h
  split at h
  · simp at h
  · obtain ⟨counts, hc1, hc2, hc3⟩ :=
      alignCore_join (raw_tokens.map String.toList)
        (input_ids.map fun i => (tk.convert i).toList) raw_rationale r h
    exact ⟨counts, by simpa using hc1, hc2, by simpa using hc3⟩

lemma align_some_reconstructs {α : Type} (input_ids : List Nat) (raw_tokens : List String)
    (raw_rationale : List α) (tk : Tokenizer) (r : List α)
    (h : align_rationale_with_tokens input_ids raw_tokens raw_rationale tk = some r) :
    reconstructedWords (input_ids.map fun i => (tk.convert i).toList)
      (raw_tokens.map String.toList) = some (raw_tokens.map String.toList) := by
  simp only [align_rationale_with_tokens] at h
  split at h
  · simp at h
  · exact alignCore_reconstructs (raw_tokens.map String.toList)
      (input_ids.map fun i => (tk.convert i).toList) raw_rationale r h

lemma align_mem {α : Type} (input_ids : List Nat) (raw_tokens : List String)
    (raw_rationale : List α) (tk : Tokenizer) (r : List α)
    (h : align_rationale_with_tokens input_ids raw_tokens raw_rationale tk = some r) :
    ∀ x ∈ r, x ∈ raw_rationale := by
  obtain ⟨counts, -, hc2, -⟩ :=
    align_some_structure input_ids raw_tokens raw_rationale tk r h
  intro x hx
  rw [hc2] at hx
  exact mem_rats_of_mem_zipFlatten counts raw_rationale x hx

/-- All eight per-example lists of the dictionary have the same length. -/
def fieldsAligned (d : DatasetDict) : Prop :=
  d.input_ids.length = d.item_idx.length ∧
  d.attention_mask.length = d.item_idx.length ∧
  d.rationale.length = d.item_idx.length ∧
  d.inv_rationale.length = d.item_idx.length ∧
  d.rand_rationale.length = d.item_idx.length ∧
  d.has_rationale.length = d.item_idx.length ∧
  d.label.length = d.item_idx.length

lemma buildSplit_none_mid (tk : Tokenizer) (anns : List AnnRecord)
    (classes : List String) (max_length : Nat) (e : ExampleInput)
    (hfail : ∀ (d2 : DatasetDict) (aml2 : Nat),
      update_dataset_dict e.idx d2 e.input_ids e.rationale max_length aml2 tk
        anns classes e.rand = none) :
    ∀ (pre post : List ExampleInput) (d : DatasetDict) (aml : Nat),
      buildSplit tk anns classes max_length (pre ++ e :: post) d aml = none := by
  intro pre
  induction pre with
  | nil =>
    intro post d aml
    simp only [List.nil_append, buildSplit, hfail d aml]
  | cons p ps ih =>
    intro post d aml
    simp only [List.cons_append, buildSplit]
    split
    · rfl
    · rename_i r hr
      exact ih post r.1 r.2

lemma buildSplit_lengths (tk : Tokenizer) (anns : List AnnRecord)
    (classes : List String) (max_length : Nat) :
    ∀ (exs : List ExampleInput) (d : DatasetDict) (aml : Nat)
      (out : DatasetDict × Nat),
      buildSplit tk anns classes max_length exs d aml = some out →
      out.1.item_idx.length = d.item_idx.length + exs.length ∧
      (fieldsAligned d → fieldsAligned out.1) := by
  intro exs
  induction exs with
  | nil =>
    intro d aml out h
    simp only [buildSplit, Option.some.injEq] at h
    simp [← h]
  | cons e es ih =>
    intro d aml out h
    simp only [buildSplit] at h
    split at h
    · simp at h
    · rename_i r hr
      obtain ⟨hlen, halign⟩ := ih r.1 r.2 out h
      obtain ⟨-, -, -, h4, h5, h6, h7, h8, h9, h10, ⟨lbl, h11⟩⟩ :=
        udd_some_spec e.idx d e.input_ids e.rationale max_length aml tk anns
          classes e.rand r hr
      constructor
      · rw [hlen, h4]
        simp [List.length_append]
        omega
      · intro hal
        apply halign
        obtain ⟨a1, a2, a3, a4, a5, a6, a7⟩ := hal
        refine ⟨?_, ?_, ?_, ?_, ?_, ?_, ?_⟩ <;>
          simp [h4, h5, h6, h7, h8, h9, h10, h11, a1, a2, a3, a4, a5, a6, a7]

lemma sst_some_spec (tk : Tokenizer) (raw_tokens : List String)
    (inst_rationale : List Rat) (input_ids0 : List Nat)
    (max_length num_special_tokens : Nat) (classes : List String)
    (classification : String) (rand : List Rat) (b : BuiltExample)
    (h : sst_build_example tk raw_tokens inst_rationale input_ids0 max_length
      num_special_tokens classes classification rand = some b) :
    ∃ raw_rationale rationale0,
      pad_raw_rationale raw_tokens.length
        (inst_rationale.map (fun x => if (1 : Rat)/2 ≤ x then (1 : Int) else 0)) =
        some raw_rationale ∧
      align_rationale_with_tokens input_ids0 raw_tokens raw_rationale tk =
        some rationale0 ∧
      input_ids0.length = rationale0.length ∧
      input_ids0.length + num_special_tokens ≤ max_length ∧
      b.input_ids = tk.cls_token_id :: input_ids0 ++ [tk.sep_token_id] ++
        List.replicate (max_length - (input_ids0.length + num_special_tokens))
          tk.pad_token_id ∧
      b.attention_mask = List.replicate (input_ids0.length + num_special_tokens) 1 ++
        List.replicate (max_length - (input_ids0.length + num_special_tokens)) 0 ∧
      b.rationale = (0 : Int) :: rationale0 ++ [0] ++
        List.replicate (max_length - (input_ids0.length + num_special_tokens)) 0 ∧
      b.inv_rationale = b.rationale.map (fun x => 1 - x) ∧
      b.has_rationale = (if (1 : Int) ∈ b.rationale then 1 else 0) ∧
      b.input_ids.length = max_length ∧
      b.attention_mask.length = max_length ∧
      b.rationale.length = max_length := by
  simp only [sst_build_example] at h
  split at h
  · simp at h
  · rename_i raw_rationale hpad
    split at h
    · split at h
      · simp at h
      · rename_i rationale0 halign
        split at h
        · rename_i hlen
          split at h
          · rename_i hbud
            split at h
            · split at h
              · rename_i hil
                split at h
                · rename_i hat
                  split at h
                  · rename_i hrl
                    split at h
                    · simp at h
                    · rename_i lbl hfi
                      simp only [Option.some.injEq] at h
                      refine ⟨raw_rationale, rationale0, hpad, halign, hlen, hbud,
                        ?_, ?_, ?_, ?_, ?_, ?_, ?_, ?_⟩
                      · rw [← h]
                      · rw [← h]
                      · rw [← h]
                      · rw [← h]
                      · rw [← h]
                      · rw [← h]; exact hil
                      · rw [← h]; exact hat
                      · rw [← h]; exact hrl
                  · simp at h
                · simp at h
              · simp at h
            · simp at h
          · simp at h
        · simp at h
    · simp at h

lemma sst_none_of_over_budget (tk : Tokenizer) (raw_tokens : List String)
    (inst_rationale : List Rat) (input_ids0 : List Nat)
    (max_length num_special_tokens : Nat) (classes : List String)
    (classification : String) (rand : List Rat)
    (h : max_length < input_ids0.length + num_special_tokens) :
    sst_build_example tk raw_tokens inst_rationale input_ids0 max_length
      num_special_tokens classes classification rand = none := by
  simp only [sst_build_example]
  split
  · rfl
  · rename_i raw_rationale hpad
    split
    · split
      · rfl
      · rename_i rationale0 halign
        split
        · split
          · rename_i hbud
            exact absurd hbud (by omega)
          · rfl
        · rfl
    · rfl

lemma pyTake_coe {α : Type} (xs : List α) (n : Nat) :
    pyTake xs (n : Int) = xs.take n := by
  simp [pyTake]

lemma pyLastN_coe_pos {α : Type} (xs : List α) (n : Nat) (h : 0 < n) :
    pyLastN xs (n : Int) = xs.drop (xs.length - n) := by
  rw [pyLastN, if_pos (by exact_mod_cast h)]
  simp


lemma pad_raw_rationale_mem (n : Nat) (l : List Int) (out : List Int)
    (h : pad_raw_rationale n l = some out) : ∀ x ∈ out, x ∈ l ∨ x = 0 := by
  simp only [pad_raw_rationale] at h
  split at h
  · simp at h
  · simp only [Option.some.injEq] at h
    intro x hx
    rw [← h] at hx
    rcases List.mem_append.mp hx with h1 | h2
    · left; exact h1
    · right; exact List.eq_of_mem_replicate h2

lemma threshold_mem (inst : List Rat) :
    ∀ x ∈ inst.map (fun x => if (1 : Rat)/2 ≤ x then (1 : Int) else 0),
      x = 0 ∨ x = 1 := by
  intro x hx
  rw [List.mem_map] at hx
  obtain ⟨y, -, hy⟩ := hx
  by_cases hc : (1 : Rat)/2 ≤ y
  · right; rw [← hy, if_pos hc]
  · left; rw [← hy, if_neg hc]


/-! Claim theorems. -/

/-- C1 (amended): when `align_rationale_with_tokens` returns normally, the
returned `token_rationale` has one entry per subword token consumed — it is a
concatenation, word by word, of blocks in which every subword token consumed
while reconstructing word `i` is assigned rationale value exactly
`raw_rationale[i]` — and its length never exceeds the number of subword
tokens of `input_ids` (it can be strictly smaller when trailing subword
tokens are never consumed, so the claimed equality does not hold in
general). -/
theorem align_output_structure_c1 {α : Type} (input_ids : List Nat)
    (raw_tokens : List String) (raw_rationale : List α) (tk : Tokenizer)
    (r : List α)
    (h : align_rationale_with_tokens input_ids raw_tokens raw_rationale tk = some r) :
    (∃ counts : List Nat, counts.length = raw_tokens.length ∧
      r = (List.zipWith (fun n v => List.replicate n v) counts raw_rationale).flatten) ∧
    r.length ≤ input_ids.length := by
  obtain ⟨counts, h1, h2, h3⟩ :=
    align_some_structure input_ids raw_tokens raw_rationale tk r h
  exact ⟨⟨counts, h1, h2⟩, h3⟩

/-- C1 counterexample: a call that returns normally whose output has fewer
entries than `input_ids` has subword tokens (the trailing token "b" is never
consumed), refuting the claimed length equality. -/
theorem align_shorter_output_c1_cex :
    align_rationale_with_tokens [0, 1] ["a"] [(1 : Int)] toyTok = some [1] ∧
    ([1] : List Int).length ≠ ([0, 1] : List Nat).length := by decide

/-- C1 witness: the amended theorem applied to a concrete aligned call. -/
theorem align_output_structure_c1_witness :
    (∃ counts : List Nat, counts.length = (["good"] : List String).length ∧
      ([1, 1] : List Int) =
        (List.zipWith (fun n v => List.replicate n v) counts [(1 : Int)]).flatten) ∧
    ([1, 1] : List Int).length ≤ ([2, 3] : List Nat).length :=
  align_output_structure_c1 [2, 3] ["good"] [(1 : Int)] toyTok [1, 1] (by decide)

/-- C2: whenever `align_rationale_with_tokens` returns normally, the word
reconstructed from the consumed subword tokens equals the expected surface
word for every word of `raw_tokens`; equivalently, whenever any reconstructed
word diverges from its surface word the function raises instead of returning
a mis-aligned rationale. -/
theorem align_abort_on_mismatch_c2 {α : Type} (input_ids : List Nat)
    (raw_tokens : List String) (raw_rationale : List α) (tk : Tokenizer)
    (r : List α)
    (h : align_rationale_with_tokens input_ids raw_tokens raw_rationale tk = some r) :
    reconstructedWords (input_ids.map fun i => (tk.convert i).toList)
      (raw_tokens.map String.toList) = some (raw_tokens.map String.toList) :=
  align_some_reconstructs input_ids raw_tokens raw_rationale tk r h

/-- C2 witness: the theorem applied to a concrete aligned call. -/
theorem align_abort_on_mismatch_c2_witness :
    reconstructedWords (([2, 3] : List Nat).map fun i => (toyTok.convert i).toList)
      ((["good"] : List String).map String.toList) =
      some ((["good"] : List String).map String.toList) :=
  align_abort_on_mismatch_c2 [2, 3] ["good"] [(1 : Int)] toyTok [1, 1] (by decide)

/-- C3: for a document truncated by the fever/movies branches with positive
length budget `L` not exceeding the document length, the prefix window of
length `L` is kept exactly when it contains a positive rationale entry, and
otherwise the suffix window of length `L` is kept. -/
theorem truncate_window_rule_c3 (ids : List Nat) (rat : List Int) (L : Nat)
    (hL : 0 < L) (hlen : L ≤ ids.length) (hrlen : rat.length = ids.length)
    (hnn : ∀ x ∈ rat, 0 ≤ x) :
    ((∃ x ∈ rat.take L, 0 < x) →
      truncate_evidence ids rat (L : Int) = (ids.take L, rat.take L)) ∧
    ((¬ ∃ x ∈ rat.take L, 0 < x) →
      truncate_evidence ids rat (L : Int) =
        (ids.drop (ids.length - L), rat.drop (rat.length - L))) := by
  have hmin : min ((ids.length : Int)) (L : Int) = (L : Int) := by omega
  have hnn2 : ∀ x ∈ rat.take L, 0 ≤ x := fun x hx => hnn x (List.take_subset _ _ hx)
  constructor
  · intro hex
    have hpos : 0 < (rat.take L).sum :=
      (sum_pos_iff_exists_pos (rat.take L) hnn2).mpr hex
    simp only [truncate_evidence, hmin, pyTake_coe]
    rw [if_pos hpos]
  · intro hnex
    have hnpos : ¬ 0 < (rat.take L).sum := fun hpos =>
      hnex ((sum_pos_iff_exists_pos (rat.take L) hnn2).mp hpos)
    simp only [truncate_evidence, hmin, pyTake_coe]
    rw [if_neg hnpos, pyLastN_coe_pos ids L hL, pyLastN_coe_pos rat L hL]

/-- C3 witness: a six-token document with budget 2 whose evidence lies only
in the last third keeps the suffix window. -/
theorem truncate_window_rule_c3_witness :
    truncate_evidence [10, 11, 12, 13, 14, 15] [0, 0, 0, 0, 1, 1] ((2 : Nat) : Int) =
      (([10, 11, 12, 13, 14, 15] : List Nat).drop
        (([10, 11, 12, 13, 14, 15] : List Nat).length - 2),
       ([0, 0, 0, 0, 1, 1] : List Int).drop
        (([0, 0, 0, 0, 1, 1] : List Int).length - 2)) :=
  (truncate_window_rule_c3 [10, 11, 12, 13, 14, 15] [0, 0, 0, 0, 1, 1] 2
    (by decide) (by decide) (by decide) (by decide)).2 (by decide)

/-- C4 (amended): on gold-rationale datasets processed through
`update_dataset_dict`, a computed rationale summing to zero raises
(`ValueError('empty rationale')`) before anything is appended, the whole
split build aborts, and every appended rationale has positive sum; the sst
branch, whose zero-sum assert is commented out in the source (line 484),
instead appends such examples with `has_rationale = 0` (see the
counterexample). -/
theorem empty_rationale_abort_c4 :
    (∀ (idx : Nat) (d : DatasetDict) (input_ids0 : List Nat)
      (rationale0 : List Int) (max_length actual_max_length : Nat)
      (tk : Tokenizer) (anns : List AnnRecord) (classes : List String)
      (rand : List Rat), rationale0.sum = 0 →
      update_dataset_dict idx d input_ids0 rationale0 max_length
        actual_max_length tk anns classes rand = none) ∧
    (∀ (idx : Nat) (d : DatasetDict) (input_ids0 : List Nat)
      (rationale0 : List Int) (max_length actual_max_length : Nat)
      (tk : Tokenizer) (anns : List AnnRecord) (classes : List String)
      (rand : List Rat) (out : DatasetDict × Nat),
      update_dataset_dict idx d input_ids0 rationale0 max_length
        actual_max_length tk anns classes rand = some out →
      ∃ rt, out.1.rationale = d.rationale ++ [rt] ∧ 0 < rt.sum) ∧
    (∀ (tk : Tokenizer) (anns : List AnnRecord) (classes : List String)
      (max_length : Nat) (e : ExampleInput) (pre post : List ExampleInput)
      (d : DatasetDict) (aml : Nat), e.rationale.sum = 0 →
      buildSplit tk anns classes max_length (pre ++ e :: post) d aml = none) := by
  refine ⟨?_, ?_, ?_⟩
  · intro idx d i0 r0 M aml tk anns cls rand h
    exact udd_none_of_sum_zero idx d i0 r0 M aml tk anns cls rand h
  · intro idx d i0 r0 M aml tk anns cls rand out h
    obtain ⟨-, -, hsum, -, -, -, hrat, -, -, -, -⟩ :=
      udd_some_spec idx d i0 r0 M aml tk anns cls rand out h
    refine ⟨_, hrat, ?_⟩
    simpa [List.sum_append] using hsum
  · intro tk anns cls M e pre post d aml h
    exact buildSplit_none_mid tk anns cls M e
      (fun d2 aml2 => udd_none_of_sum_zero e.idx d2 e.input_ids e.rationale
        M aml2 tk anns cls e.rand h) pre post d aml

/-- C4 counterexample: the sst branch (a gold-rationale dataset path) builds
and returns an example whose stored rationale sums to zero with
`has_rationale = 0` instead of raising. -/
theorem sst_zero_rationale_appended_c4_cex :
    (sst_build_example toyTok ["a"] [] [0] 4 2 ["x"] "x" []).map
      (fun b => (b.has_rationale, b.rationale.sum)) = some (0, 0) := by decide

/-- C4 witness: the amended theorem applied at concrete inputs. -/
theorem empty_rationale_abort_c4_witness :
    update_dataset_dict 0 emptyDatasetDict [0] [0] 4 0 toyTok [⟨"x"⟩] ["x"] [] =
      none ∧
    (∃ out, update_dataset_dict 0 emptyDatasetDict [0] [1] 4 0 toyTok [⟨"x"⟩]
      ["x"] [] = some out ∧
      ∃ rt, out.1.rationale = emptyDatasetDict.rationale ++ [rt] ∧ 0 < rt.sum) ∧
    buildSplit toyTok [⟨"x"⟩] ["x"] 4 ([] ++ ⟨0, [0], [0], []⟩ :: [])
      emptyDatasetDict 0 = none := by
  refine ⟨?_, ?_, ?_⟩
  · exact empty_rationale_abort_c4.1 0 emptyDatasetDict [0] [0] 4 0 toyTok
      [⟨"x"⟩] ["x"] [] (by decide)
  · exact ⟨_, rfl, empty_rationale_abort_c4.2.1 0 emptyDatasetDict [0] [1] 4 0
      toyTok [⟨"x"⟩] ["x"] [] _ rfl⟩
  · exact empty_rationale_abort_c4.2.2 toyTok [⟨"x"⟩] ["x"] 4 ⟨0, [0], [0], []⟩
      [] [] emptyDatasetDict 0 (by decide)

/-- C5: every successfully built example stores token ids, attention mask
and rationale of length exactly `max_length`: the start marker is prepended,
the end marker appended, padding is added on the right, the mask is 1 at
real and marker positions and 0 at padding, the rationale is 0 at marker and
padding positions (`update_dataset_dict`), and the sst builder's three
stored sequences likewise have length `max_length`. -/
theorem built_lengths_c5 :
    (∀ (idx : Nat) (d : DatasetDict) (input_ids0 : List Nat)
      (rationale0 : List Int) (max_length actual_max_length : Nat)
      (tk : Tokenizer) (anns : List AnnRecord) (classes : List String)
      (rand : List Rat) (out : DatasetDict × Nat),
      update_dataset_dict idx d input_ids0 rationale0 max_length
        actual_max_length tk anns classes rand = some out →
      ∃ ii am rt,
        out.1.input_ids = d.input_ids ++ [ii] ∧
        out.1.attention_mask = d.attention_mask ++ [am] ∧
        out.1.rationale = d.rationale ++ [rt] ∧
        ii = (tk.cls_token_id :: input_ids0 ++ [tk.sep_token_id]) ++
          List.replicate (max_length - (input_ids0.length + 2)) tk.pad_token_id ∧
        am = List.replicate (input_ids0.length + 2) 1 ++
          List.replicate (max_length - (input_ids0.length + 2)) 0 ∧
        rt = ((0 : Int) :: rationale0 ++ [0]) ++
          List.replicate (max_length - (input_ids0.length + 2)) 0 ∧
        ii.length = max_length ∧ am.length = max_length ∧
        rt.length = max_length) ∧
    (∀ (tk : Tokenizer) (raw_tokens : List String) (inst_rationale : List Rat)
      (input_ids0 : List Nat) (max_length num_special_tokens : Nat)
      (classes : List String) (classification : String) (rand : List Rat)
      (b : BuiltExample),
      sst_build_example tk raw_tokens inst_rationale input_ids0 max_length
        num_special_tokens classes classification rand = some b →
      b.input_ids.length = max_length ∧ b.attention_mask.length = max_length ∧
      b.rationale.length = max_length) := by
  refine ⟨?_, ?_⟩
  · intro idx d i0 r0 M aml tk anns cls rand out h
    obtain ⟨hlen, hle2, -, -, hii, ham, hrat, -, -, -, -⟩ :=
      udd_some_spec idx d i0 r0 M aml tk anns cls rand out h
    refine ⟨_, _, _, hii, ham, hrat, rfl, rfl, rfl, ?_, ?_, ?_⟩
    · simp only [List.length_append, List.length_cons, List.length_replicate,
        List.length_nil]
      omega
    · simp only [List.length_append, List.length_replicate]
      omega
    · simp only [List.length_append, List.length_cons, List.length_replicate,
        List.length_nil]
      omega
  · intro tk rts inst i0 M nst cls cl rand b h
    obtain ⟨-, -, -, -, -, -, -, -, -, -, -, hl1, hl2, hl3⟩ :=
      sst_some_spec tk rts inst i0 M nst cls cl rand b h
    exact ⟨hl1, hl2, hl3⟩

/-- C5 witness: both conjuncts applied at concrete inputs. -/
theorem built_lengths_c5_witness :
    (∃ out, update_dataset_dict 0 emptyDatasetDict [0] [1] 4 0 toyTok [⟨"x"⟩]
      ["x"] [] = some out ∧
      ∃ ii am rt,
        out.1.input_ids = emptyDatasetDict.input_ids ++ [ii] ∧
        out.1.attention_mask = emptyDatasetDict.attention_mask ++ [am] ∧
        out.1.rationale = emptyDatasetDict.rationale ++ [rt] ∧
        ii = [100, 0, 101, 102] ∧ am = [1, 1, 1, 0] ∧ rt = [0, 1, 0, 0] ∧
        ii.length = 4 ∧ am.length = 4 ∧ rt.length = 4) ∧
    (∃ b, sst_build_example toyTok ["a"] [] [0] 4 2 ["x"] "x" [] = some b ∧
      b.input_ids.length = 4 ∧ b.attention_mask.length = 4 ∧
      b.rationale.length = 4) := by
  constructor
  · exact ⟨_, rfl, built_lengths_c5.1 0 emptyDatasetDict [0] [1] 4 0 toyTok
      [⟨"x"⟩] ["x"] [] _ rfl⟩
  · exact ⟨_, rfl, built_lengths_c5.2 toyTok ["a"] [] [0] 4 2 ["x"] "x" [] _ rfl⟩

/-- C6 (amended): for examples built by `update_dataset_dict` the stored
`has_rationale` flag is 1 exactly when some stored rationale entry is
strictly positive, and the same equivalence holds for the sst builder
(whose rationale entries are the thresholded values 0 and 1); the
hatexplain branch violates the equivalence, since it sets the flag from
raw-list non-emptiness (see the counterexample). -/
theorem has_rationale_iff_pos_c6 :
    (∀ (idx : Nat) (d : DatasetDict) (input_ids0 : List Nat)
      (rationale0 : List Int) (max_length actual_max_length : Nat)
      (tk : Tokenizer) (anns : List AnnRecord) (classes : List String)
      (rand : List Rat) (out : DatasetDict × Nat),
      update_dataset_dict idx d input_ids0 rationale0 max_length
        actual_max_length tk anns classes rand = some out →
      ∃ rt f, out.1.rationale = d.rationale ++ [rt] ∧
        out.1.has_rationale = d.has_rationale ++ [f] ∧
        (f = 1 ↔ ∃ x ∈ rt, 0 < x)) ∧
    (∀ (tk : Tokenizer) (raw_tokens : List String) (inst_rationale : List Rat)
      (input_ids0 : List Nat) (max_length num_special_tokens : Nat)
      (classes : List String) (classification : String) (rand : List Rat)
      (b : BuiltExample),
      sst_build_example tk raw_tokens inst_rationale input_ids0 max_length
        num_special_tokens classes classification rand = some b →
      (b.has_rationale = 1 ↔ ∃ x ∈ b.rationale, 0 < x)) := by
  refine ⟨?_, ?_⟩
  · intro idx d i0 r0 M aml tk anns cls rand out h
    obtain ⟨-, -, hsum, -, -, -, hrat, -, -, hhas, -⟩ :=
      udd_some_spec idx d i0 r0 M aml tk anns cls rand out h
    refine ⟨_, 1, hrat, hhas, ?_⟩
    constructor
    · intro _
      apply exists_pos_of_sum_pos
      simpa [List.sum_append] using hsum
    · intro _
      rfl
  · intro tk rts inst i0 M nst cls cl rand b h
    obtain ⟨rr, r0, hpad, halign, -, -, -, -, hrat, -, hhas, -, -, -⟩ :=
      sst_some_spec tk rts inst i0 M nst cls cl rand b h
    have hmem : ∀ x ∈ b.rationale, x = 0 ∨ x = 1 := by
      intro x hx
      rw [hrat] at hx
      rcases List.mem_append.mp hx with hx1 | hx2
      · rcases List.mem_cons.mp hx1 with h0 | hx0
        · left; exact h0
        · rcases List.mem_append.mp hx0 with hx0a | hx0b
          · have hxr := align_mem i0 rts rr tk r0 halign x hx0a
            rcases pad_raw_rationale_mem rts.length _ rr hpad x hxr with hin | h0
            · exact threshold_mem inst x hin
            · left; exact h0
          · left; simpa using hx0b
      · left; exact List.eq_of_mem_replicate hx2
    rw [hhas]
    constructor
    · intro h1
      by_cases hm : (1 : Int) ∈ b.rationale
      · exact ⟨1, hm, by decide⟩
      · rw [if_neg hm] at h1
        exact absurd h1 (by decide)
    · rintro ⟨x, hx, hxpos⟩
      rcases hmem x hx with h0 | h1x
      · omega
      · rw [if_pos (h1x ▸ hx)]

/-- C6 counterexample: a hatexplain example whose raw rationale list is
nonempty but all-zero is built with `has_rationale = 1` while no stored
rationale entry is positive. -/
theorem hatexplain_flag_c6_cex :
    (hatexplain_build_example toyTok ["a", "b"] [0, 0] [0, 1] 6 2 0 []).map
      (fun b => (b.has_rationale, decide (∃ x ∈ b.rationale, 0 < x))) =
      some (1, false) := by decide

/-- C6 witness: both conjuncts of the amended theorem applied at concrete
inputs. -/
theorem has_rationale_iff_pos_c6_witness :
    (∃ out, update_dataset_dict 0 emptyDatasetDict [0] [1] 4 0 toyTok [⟨"x"⟩]
      ["x"] [] = some out ∧
      ∃ rt f, out.1.rationale = emptyDatasetDict.rationale ++ [rt] ∧
        out.1.has_rationale = emptyDatasetDict.has_rationale ++ [f] ∧
        (f = 1 ↔ ∃ x ∈ rt, 0 < x)) ∧
    (∃ b, sst_build_example toyTok ["a"] [] [0] 4 2 ["x"] "x" [] = some b ∧
      (b.has_rationale = 1 ↔ ∃ x ∈ b.rationale, 0 < x)) := by
  constructor
  · exact ⟨_, rfl, has_rationale_iff_pos_c6.1 0 emptyDatasetDict [0] [1] 4 0
      toyTok [⟨"x"⟩] ["x"] [] _ rfl⟩
  · exact ⟨_, rfl, has_rationale_iff_pos_c6.2 toyTok ["a"] [] [0] 4 2 ["x"]
      "x" [] _ rfl⟩

/-- C7: the word/rationale length precondition is enforced — a rationale
longer than the token list aborts — and otherwise the word-level rationale is
right-padded with zeros by the length difference (in particular by a single
`0.0` when the difference is exactly one), so the aligner receives exactly
one rationale value per word. -/
theorem word_rationale_pad_rule_c7 (num_raw_tokens : Nat)
    (raw_rationale : List Int) :
    (num_raw_tokens < raw_rationale.length →
      pad_raw_rationale num_raw_tokens raw_rationale = none) ∧
    (raw_rationale.length ≤ num_raw_tokens →
      pad_raw_rationale num_raw_tokens raw_rationale =
        some (raw_rationale ++
          List.replicate (num_raw_tokens - raw_rationale.length) 0)) ∧
    (num_raw_tokens = raw_rationale.length + 1 →
      pad_raw_rationale num_raw_tokens raw_rationale =
        some (raw_rationale ++ [0])) ∧
    (∀ out, pad_raw_rationale num_raw_tokens raw_rationale = some out →
      out.length = num_raw_tokens) := by
  refine ⟨?_, ?_, ?_, ?_⟩
  · intro h
    simp [pad_raw_rationale, h]
  · intro h
    simp only [pad_raw_rationale]
    rw [if_neg (by omega)]
  · intro h
    simp only [pad_raw_rationale]
    rw [if_neg (by omega)]
    have h1 : num_raw_tokens - raw_rationale.length = 1 := by omega
    rw [h1]
    rfl
  · intro out h
    simp only [pad_raw_rationale] at h
    split at h
    · simp at h
    · rename_i hge
      simp only [Option.some.injEq] at h
      rw [← h]
      simp only [List.length_append, List.length_replicate]
      omega

/-- C7 witness: the four conjuncts applied at concrete inputs. -/
theorem word_rationale_pad_rule_c7_witness :
    pad_raw_rationale 1 [0, 0] = none ∧
    pad_raw_rationale 3 [5] =
      some ([5] ++ List.replicate (3 - ([5] : List Int).length) 0) ∧
    pad_raw_rationale 2 [5] = some ([5] ++ [0]) ∧
    ([5, 0, 0] : List Int).length = 3 :=
  ⟨(word_rationale_pad_rule_c7 1 [0, 0]).1 (by decide),
   (word_rationale_pad_rule_c7 3 [5]).2.1 (by decide),
   (word_rationale_pad_rule_c7 2 [5]).2.2.1 (by decide),
   (word_rationale_pad_rule_c7 3 [5]).2.2.2 [5, 0, 0] (by decide)⟩

/-- C8: for every successfully built example, the stored inverse rationale
satisfies `inv_rationale[i] = 1 - rationale[i]` at every position, both for
`update_dataset_dict` (where both stored lists have length `max_length`) and
for the sst builder. -/
theorem inv_rationale_pointwise_c8 :
    (∀ (idx : Nat) (d : DatasetDict) (input_ids0 : List Nat)
      (rationale0 : List Int) (max_length actual_max_length : Nat)
      (tk : Tokenizer) (anns : List AnnRecord) (classes : List String)
      (rand : List Rat) (out : DatasetDict × Nat),
      update_dataset_dict idx d input_ids0 rationale0 max_length
        actual_max_length tk anns classes rand = some out →
      ∃ rt iv, out.1.rationale = d.rationale ++ [rt] ∧
        out.1.inv_rationale = d.inv_rationale ++ [iv] ∧
        rt.length = max_length ∧ iv.length = max_length ∧
        ∀ i, i < max_length → iv.getD i 0 = 1 - rt.getD i 0) ∧
    (∀ (tk : Tokenizer) (raw_tokens : List String) (inst_rationale : List Rat)
      (input_ids0 : List Nat) (max_length num_special_tokens : Nat)
      (classes : List String) (classification : String) (rand : List Rat)
      (b : BuiltExample),
      sst_build_example tk raw_tokens inst_rationale input_ids0 max_length
        num_special_tokens classes classification rand = some b →
      b.inv_rationale.length = b.rationale.length ∧
      ∀ i, i < b.rationale.length →
        b.inv_rationale.getD i 0 = 1 - b.rationale.getD i 0) := by
  refine ⟨?_, ?_⟩
  · intro idx d i0 r0 M aml tk anns cls rand out h
    obtain ⟨hlen, hle2, -, -, -, -, hrat, hinv, -, -, -⟩ :=
      udd_some_spec idx d i0 r0 M aml tk anns cls rand out h
    refine ⟨_, _, hrat, hinv, ?_, ?_, ?_⟩
    · simp only [List.length_append, List.length_cons, List.length_replicate,
        List.length_nil]
      omega
    · simp only [List.length_map, List.length_append, List.length_cons,
        List.length_replicate, List.length_nil]
      omega
    · intro i hi
      have hlt : i < (((0 : Int) :: r0 ++ [0]) ++
          List.replicate (M - (i0.length + 2)) 0).length := by
        simp only [List.length_append, List.length_cons, List.length_replicate,
          List.length_nil]
        omega
      exact getD_map_of_lt (fun x => 1 - x) _ i hlt 0 0
  · intro tk rts inst i0 M nst cls cl rand b h
    obtain ⟨rr, r0, -, -, -, -, -, -, -, hinv, -, -, -, -⟩ :=
      sst_some_spec tk rts inst i0 M nst cls cl rand b h
    constructor
    · rw [hinv, List.length_map]
    · intro i hi
      rw [hinv]
      exact getD_map_of_lt (fun x => 1 - x) b.rationale i hi 0 0

/-- C8 witness: both conjuncts applied at concrete inputs. -/
theorem inv_rationale_pointwise_c8_witness :
    (∃ out, update_dataset_dict 0 emptyDatasetDict [0] [1] 4 0 toyTok [⟨"x"⟩]
      ["x"] [] = some out ∧
      ∃ rt iv, out.1.rationale = emptyDatasetDict.rationale ++ [rt] ∧
        out.1.inv_rationale = emptyDatasetDict.inv_rationale ++ [iv] ∧
        rt.length = 4 ∧ iv.length = 4 ∧
        ∀ i, i < 4 → iv.getD i 0 = 1 - rt.getD i 0) ∧
    (∃ b, sst_build_example toyTok ["a"] [] [0] 4 2 ["x"] "x" [] = some b ∧
      b.inv_rationale.length = b.rationale.length ∧
      ∀ i, i < b.rationale.length →
        b.inv_rationale.getD i 0 = 1 - b.rationale.getD i 0) := by
  constructor
  · exact ⟨_, rfl, inv_rationale_pointwise_c8.1 0 emptyDatasetDict [0] [1] 4 0
      toyTok [⟨"x"⟩] ["x"] [] _ rfl⟩
  · exact ⟨_, rfl, inv_rationale_pointwise_c8.2 toyTok ["a"] [] [0] 4 2 ["x"]
      "x" [] _ rfl⟩

/-- C9: an example whose token count including special tokens exceeds
`max_length` makes the builder abort with nothing appended — both in
`update_dataset_dict` and in the sst branch — and under the precondition
that the count fits (together with the other success conditions) the
builder returns normally, so the abort branch is unreachable. -/
theorem length_budget_abort_c9 :
    (∀ (idx : Nat) (d : DatasetDict) (input_ids0 : List Nat)
      (rationale0 : List Int) (max_length actual_max_length : Nat)
      (tk : Tokenizer) (anns : List AnnRecord) (classes : List String)
      (rand : List Rat), max_length < input_ids0.length + 2 →
      update_dataset_dict idx d input_ids0 rationale0 max_length
        actual_max_length tk anns classes rand = none) ∧
    (∀ (idx : Nat) (d : DatasetDict) (input_ids0 : List Nat)
      (rationale0 : List Int) (max_length actual_max_length : Nat)
      (tk : Tokenizer) (anns : List AnnRecord) (classes : List String)
      (rand : List Rat) (a : AnnRecord) (lbl : Nat),
      input_ids0.length + 2 ≤ max_length →
      input_ids0.length = rationale0.length →
      0 < rationale0.sum →
      anns.get? idx = some a →
      classes.findIdx? (fun c => c = a.classification) = some lbl →
      ∃ out, update_dataset_dict idx d input_ids0 rationale0 max_length
        actual_max_length tk anns classes rand = some out) ∧
    (∀ (tk : Tokenizer) (raw_tokens : List String) (inst_rationale : List Rat)
      (input_ids0 : List Nat) (max_length num_special_tokens : Nat)
      (classes : List String) (classification : String) (rand : List Rat),
      max_length < input_ids0.length + num_special_tokens →
      sst_build_example tk raw_tokens inst_rationale input_ids0 max_length
        num_special_tokens classes classification rand = none) := by
  refine ⟨?_, ?_, ?_⟩
  · intro idx d i0 r0 M aml tk anns cls rand h
    exact udd_none_of_over_budget idx d i0 r0 M aml tk anns cls rand h
  · intro idx d i0 r0 M aml tk anns cls rand a lbl hle hlen hsum ha hl
    exact Option.isSome_iff_exists.mp
      (udd_isSome_of_ok idx d i0 r0 M aml tk anns cls rand a lbl hlen hle hsum ha hl)
  · intro tk rts inst i0 M nst cls cl rand h
    exact sst_none_of_over_budget tk rts inst i0 M nst cls cl rand h

/-- C9 witness: the three conjuncts applied at concrete inputs. -/
theorem length_budget_abort_c9_witness :
    update_dataset_dict 0 emptyDatasetDict [0] [1] 2 0 toyTok [⟨"x"⟩] ["x"] [] =
      none ∧
    (∃ out, update_dataset_dict 0 emptyDatasetDict [0] [1] 4 0 toyTok [⟨"x"⟩]
      ["x"] [] = some out) ∧
    sst_build_example toyTok ["a"] [] [0] 2 2 ["x"] "x" [] = none :=
  ⟨length_budget_abort_c9.1 0 emptyDatasetDict [0] [1] 2 0 toyTok [⟨"x"⟩]
    ["x"] [] (by decide),
   length_budget_abort_c9.2.1 0 emptyDatasetDict [0] [1] 4 0 toyTok [⟨"x"⟩]
    ["x"] [] ⟨"x"⟩ 0 (by decide) (by decide) (by decide) rfl rfl,
   length_budget_abort_c9.2.2 toyTok ["a"] [] [0] 2 2 ["x"] "x" [] (by decide)⟩

/-- C10: every normally returning call of `update_dataset_dict` appends
exactly one element to each of the eight field lists and nothing else, so a
whole split build adds one entry per processed example to `item_idx` and
preserves the equal-length invariant of the eight lists; a raising call (a
`none` run) appends nothing, since every abort occurs before the appends. -/
theorem udd_appends_once_c10 :
    (∀ (idx : Nat) (d : DatasetDict) (input_ids0 : List Nat)
      (rationale0 : List Int) (max_length actual_max_length : Nat)
      (tk : Tokenizer) (anns : List AnnRecord) (classes : List String)
      (rand : List Rat) (out : DatasetDict × Nat),
      update_dataset_dict idx d input_ids0 rationale0 max_length
        actual_max_length tk anns classes rand = some out →
      ∃ v1 v2 v3 v4 v5 v6 v7 v8,
        out.1.item_idx = d.item_idx ++ [v1] ∧
        out.1.input_ids = d.input_ids ++ [v2] ∧
        out.1.attention_mask = d.attention_mask ++ [v3] ∧
        out.1.rationale = d.rationale ++ [v4] ∧
        out.1.inv_rationale = d.inv_rationale ++ [v5] ∧
        out.1.rand_rationale = d.rand_rationale ++ [v6] ∧
        out.1.has_rationale = d.has_rationale ++ [v7] ∧
        out.1.label = d.label ++ [v8]) ∧
    (∀ (tk : Tokenizer) (anns : List AnnRecord) (classes : List String)
      (max_length : Nat) (exs : List ExampleInput) (d : DatasetDict)
      (aml : Nat) (out : DatasetDict × Nat),
      buildSplit tk anns classes max_length exs d aml = some out →
      out.1.item_idx.length = d.item_idx.length + exs.length ∧
      (fieldsAligned d → fieldsAligned out.1)) := by
  refine ⟨?_, ?_⟩
  · intro idx d i0 r0 M aml tk anns cls rand out h
    obtain ⟨-, -, -, h4, h5, h6, h7, h8, h9, h10, lbl, h11⟩ :=
      udd_some_spec idx d i0 r0 M aml tk anns cls rand out h
    exact ⟨idx, _, _, _, _, rand, 1, lbl, h4, h5, h6, h7, h8, h9, h10, h11⟩
  · intro tk anns cls M exs d aml out h
    exact buildSplit_lengths tk anns cls M exs d aml out h

/-- C10 witness: both conjuncts applied at concrete inputs. -/
theorem udd_appends_once_c10_witness :
    (∃ out, update_dataset_dict 0 emptyDatasetDict [0] [1] 4 0 toyTok [⟨"x"⟩]
      ["x"] [] = some out ∧
      ∃ v1 v2 v3 v4 v5 v6 v7 v8,
        out.1.item_idx = emptyDatasetDict.item_idx ++ [v1] ∧
        out.1.input_ids = emptyDatasetDict.input_ids ++ [v2] ∧
        out.1.attention_mask = emptyDatasetDict.attention_mask ++ [v3] ∧
        out.1.rationale = emptyDatasetDict.rationale ++ [v4] ∧
        out.1.inv_rationale = emptyDatasetDict.inv_rationale ++ [v5] ∧
        out.1.rand_rationale = emptyDatasetDict.rand_rationale ++ [v6] ∧
        out.1.has_rationale = emptyDatasetDict.has_rationale ++ [v7] ∧
        out.1.label = emptyDatasetDict.label ++ [v8]) ∧
    (∃ out, buildSplit toyTok [⟨"x"⟩] ["x"] 4 [⟨0, [0], [1], []⟩]
      emptyDatasetDict 0 = some out ∧
      out.1.item_idx.length = emptyDatasetDict.item_idx.length +
        ([⟨0, [0], [1], []⟩] : List ExampleInput).length ∧
      (fieldsAligned emptyDatasetDict → fieldsAligned out.1)) := by
  constructor
  · exact ⟨_, rfl, udd_appends_once_c10.1 0 emptyDatasetDict [0] [1] 4 0
      toyTok [⟨"x"⟩] ["x"] [] _ rfl⟩
  · exact ⟨_, rfl, udd_appends_once_c10.2 toyTok [⟨"x"⟩] ["x"] 4
      [⟨0, [0], [1], []⟩] emptyDatasetDict 0 _ rfl⟩
